import Mathlib

/-!
Shallow embedding of the reconciliation engine of
Smart-Reconciliation-Visualizer (`src/lib/reconciliation.ts`,
`src/types/reconciliation.ts`).

Monetary amounts (JavaScript `number`s used for exact decimal values) are
embedded as rationals; JavaScript strings as Lean `String`s with explicit
list-based character operations (`jsTrim`, `toUpperStr`, `toLowerStr`,
`jsIncludes`) that model `String.prototype.trim`, `toUpperCase`,
`toLowerCase` and `includes` on the ASCII data the engine handles.
A JavaScript `Map` (insertion-ordered, `set` replaces in place) is embedded
as an association list with `mapSet` / `mapGet`.
-/

namespace Recon

/-- Status enumeration `ReconciliationStatus` from `types/reconciliation.ts`. -/
inductive ReconciliationStatus where
  | matched
  | mismatched
  | missing_in_purchase
  | missing_in_sales
deriving DecidableEq, Repr

/-- A value that is a JavaScript string or number (`string | number`). -/
abbrev JSValue := String ⊕ ℚ

/-- `FinancialRecord` from `types/reconciliation.ts`. -/
structure FinancialRecord where
  id : String
  gstin : String
  partyName : String
  invoiceNo : String
  invoiceDate : String
  taxableAmount : ℚ
  igst : ℚ
  cgst : ℚ
  sgst : ℚ
  totalAmount : ℚ
  rawData : List (String × JSValue)
deriving DecidableEq, Repr

/-- `MismatchReason` from `types/reconciliation.ts`; the optional
`difference` is present exactly on numeric-field reasons. -/
structure MismatchReason where
  field : String
  purchaseValue : JSValue
  salesValue : JSValue
  difference : Option ℚ
deriving DecidableEq, Repr

/-- `ReconciliationResult` from `types/reconciliation.ts`. -/
structure ReconciliationResult where
  id : String
  status : ReconciliationStatus
  purchaseRecord : Option FinancialRecord
  salesRecord : Option FinancialRecord
  matchKey : String
  mismatchReasons : List MismatchReason
  totalDifference : ℚ
deriving DecidableEq, Repr

/-- `ReconciliationSummary` from `types/reconciliation.ts`.
`matchPercentage` is an integer (result of `Math.round`). -/
structure ReconciliationSummary where
  totalRecords : Nat
  matchedCount : Nat
  mismatchedCount : Nat
  missingInPurchaseCount : Nat
  missingInSalesCount : Nat
  matchPercentage : ℤ
  totalDifferenceAmount : ℚ
deriving DecidableEq, Repr

/-- JavaScript `String.prototype.trim`: drop whitespace from both ends. -/
def jsTrim (s : String) : String :=
  String.mk (((s.data.dropWhile Char.isWhitespace).reverse.dropWhile
    Char.isWhitespace).reverse)

/-- JavaScript `String.prototype.toUpperCase` on ASCII data. -/
def toUpperStr (s : String) : String :=
  String.mk (s.data.map Char.toUpper)

/-- JavaScript `String.prototype.toLowerCase` on ASCII data. -/
def toLowerStr (s : String) : String :=
  String.mk (s.data.map Char.toLower)

/-- JavaScript `String.prototype.includes`: substring occurrence. -/
def jsIncludes (hay sub : String) : Bool :=
  hay.data.tails.any (fun t => sub.data.isPrefixOf t)

/-- The `.replace(/\s+/g, "")` step: remove every whitespace character. -/
def stripWhitespace (s : String) : String :=
  String.mk (s.data.filter (fun c => !c.isWhitespace))

/-- Invoice-number normalization in `generateMatchKey`:
`invoiceNo.toString().trim().toUpperCase().replace(/\s+/g, "")`. -/
def normalizeInvoiceNo (s : String) : String :=
  stripWhitespace (toUpperStr (jsTrim s))

/-- The regex for YYYY-MM-DD, four digits, dash, two digits, dash, two
digits (`isoMatch` in the source). -/
def isoFormat : List Char → Bool
  | [y1, y2, y3, y4, s1, m1, m2, s2, d1, d2] =>
    y1.isDigit && y2.isDigit && y3.isDigit && y4.isDigit &&
    s1 == '-' && m1.isDigit && m2.isDigit && s2 == '-' && d1.isDigit && d2.isDigit
  | _ => false

/-- The regex for DD-MM-YYYY with each separator independently a dash or a
slash (`indianMatch` in the source). -/
def indianFormat : List Char → Bool
  | [d1, d2, s1, m1, m2, s2, y1, y2, y3, y4] =>
    d1.isDigit && d2.isDigit && (s1 == '-' || s1 == '/') &&
    m1.isDigit && m2.isDigit && (s2 == '-' || s2 == '/') &&
    y1.isDigit && y2.isDigit && y3.isDigit && y4.isDigit
  | _ => false

/-- The rewrite `${year}-${month}-${day}` applied to a string matching
`indianFormat`; identity on any other shape (never reached on those). -/
def rewriteIndian : List Char → List Char
  | [d1, d2, _, m1, m2, _, y1, y2, y3, y4] =>
    [y1, y2, y3, y4, '-', m1, m2, '-', d1, d2]
  | cs => cs

/-- Date normalization in `generateMatchKey`: the `if (record.invoiceDate)`
truthiness test (empty string is falsy, giving `normalizedDate = ""`),
then trim, then the iso / indian regex cascade with raw pass-through. -/
def normalizeDate (raw : String) : String :=
  if raw = "" then ""
  else
    let dateStr := jsTrim raw
    if isoFormat dateStr.data then dateStr
    else if indianFormat dateStr.data then String.mk (rewriteIndian dateStr.data)
    else dateStr

/-- `generateMatchKey` from `src/lib/reconciliation.ts`. -/
def generateMatchKey (record : FinancialRecord) : String :=
  normalizeInvoiceNo record.invoiceNo ++ "|" ++ normalizeDate record.invoiceDate

/-- Tolerance constant `AMOUNT_TOLERANCE` (₹1). -/
def AMOUNT_TOLERANCE : ℚ := 1

/-- JavaScript `Math.abs`. -/
def jsAbs (q : ℚ) : ℚ := if q < 0 then -q else q

/-- Return shape of `compareAmounts`. -/
structure AmountComparison where
  isEqual : Bool
  difference : ℚ
deriving DecidableEq, Repr

/-- `compareAmounts` from `src/lib/reconciliation.ts`:
`isEqual` iff `abs(amount1 - amount2) <= tolerance`; `difference` is the
signed value `amount1 - amount2`. -/
def compareAmounts (amount1 amount2 : ℚ) : AmountComparison :=
  ⟨decide (jsAbs (amount1 - amount2) ≤ AMOUNT_TOLERANCE), amount1 - amount2⟩

/-- The GSTIN comparison block of `findMismatches`: both sides are
uppercased and trimmed; a reason is pushed only when both are non-empty
(JS truthiness) and differ. -/
def gstinReason (purchaseRecord salesRecord : FinancialRecord) :
    List MismatchReason :=
  let purchaseGstin := jsTrim (toUpperStr purchaseRecord.gstin)
  let salesGstin := jsTrim (toUpperStr salesRecord.gstin)
  if purchaseGstin ≠ "" ∧ salesGstin ≠ "" ∧ purchaseGstin ≠ salesGstin then
    [⟨"GSTIN", Sum.inl purchaseRecord.gstin, Sum.inl salesRecord.gstin, none⟩]
  else []

/-- The Party Name comparison block of `findMismatches`: lowercased and
trimmed; a reason is pushed only when both are non-empty, differ, and
neither `includes` the other. -/
def partyNameReason (purchaseRecord salesRecord : FinancialRecord) :
    List MismatchReason :=
  let purchaseName := jsTrim (toLowerStr purchaseRecord.partyName)
  let salesName := jsTrim (toLowerStr salesRecord.partyName)
  if purchaseName ≠ "" ∧ salesName ≠ "" ∧ purchaseName ≠ salesName ∧
      jsIncludes purchaseName salesName = false ∧
      jsIncludes salesName purchaseName = false then
    [⟨"Party Name", Sum.inl purchaseRecord.partyName,
      Sum.inl salesRecord.partyName, none⟩]
  else []

/-- One numeric comparison block of `findMismatches` (the same shape is
repeated for Taxable Amount, IGST, CGST, SGST and Total Amount): push a
reason carrying the signed difference when `compareAmounts` says unequal. -/
def amountReason (fieldName : String) (purchaseValue salesValue : ℚ) :
    List MismatchReason :=
  let c := compareAmounts purchaseValue salesValue
  if c.isEqual then []
  else [⟨fieldName, Sum.inr purchaseValue, Sum.inr salesValue,
    some c.difference⟩]

/-- `findMismatches` from `src/lib/reconciliation.ts`: the reasons pushed
by the seven comparison blocks, in source order. -/
def findMismatches (purchaseRecord salesRecord : FinancialRecord) :
    List MismatchReason :=
  gstinReason purchaseRecord salesRecord
    ++ partyNameReason purchaseRecord salesRecord
    ++ amountReason "Taxable Amount" purchaseRecord.taxableAmount
        salesRecord.taxableAmount
    ++ amountReason "IGST" purchaseRecord.igst salesRecord.igst
    ++ amountReason "CGST" purchaseRecord.cgst salesRecord.cgst
    ++ amountReason "SGST" purchaseRecord.sgst salesRecord.sgst
    ++ amountReason "Total Amount" purchaseRecord.totalAmount
        salesRecord.totalAmount

/-- Association list embedding one of the insertion-ordered JavaScript
`Map<string, FinancialRecord>` lookup structures. -/
abbrev RecMap := List (String × FinancialRecord)

/-- JavaScript `Map.prototype.set`: replace the value in place when the key
is present (keeping its original position), else append the pair. -/
def mapSet (m : RecMap) (k : String) (v : FinancialRecord) : RecMap :=
  if m.any (fun p => p.1 == k) then
    m.map (fun p => if p.1 == k then (k, v) else p)
  else m ++ [(k, v)]

/-- JavaScript `Map.prototype.get` (with `undefined` as `none`). -/
def mapGet (m : RecMap) (k : String) : Option FinancialRecord :=
  (m.find? (fun p => p.1 == k)).map Prod.snd

/-- The map-building loops of `reconcileDatasets`: fold the records into an
insertion-ordered map keyed by `generateMatchKey`. -/
def buildMap (records : List FinancialRecord) : RecMap :=
  records.foldl (fun m r => mapSet m (generateMatchKey r) r) []

/-- The generated identifier `result-${results.length}`. -/
def mkResultId (n : Nat) : String := "result-" ++ toString n

/-- The body of the purchase-map loop of `reconcileDatasets` for one entry
`(k, purchaseRecord)`, where `n` is the current `results.length`. -/
def processPurchase (salesMap : RecMap) (n : Nat) (k : String)
    (purchaseRecord : FinancialRecord) : ReconciliationResult :=
  match mapGet salesMap k with
  | none =>
    ⟨mkResultId n, ReconciliationStatus.missing_in_sales, some purchaseRecord,
      none, k, [], purchaseRecord.totalAmount⟩
  | some salesRecord =>
    let mismatches := findMismatches purchaseRecord salesRecord
    if mismatches.isEmpty then
      ⟨mkResultId n, ReconciliationStatus.matched, some purchaseRecord,
        some salesRecord, k, [], 0⟩
    else
      let totalDiff := mismatches.find? (fun m => m.field == "Total Amount")
      ⟨mkResultId n, ReconciliationStatus.mismatched, some purchaseRecord,
        some salesRecord, k, mismatches,
        (totalDiff.bind (fun m => m.difference)).getD 0⟩

/-- The body of the remaining-sales loop of `reconcileDatasets` for one
entry `(k, salesRecord)` not marked processed. -/
def mkMissingInPurchase (n : Nat) (k : String)
    (salesRecord : FinancialRecord) : ReconciliationResult :=
  ⟨mkResultId n, ReconciliationStatus.missing_in_purchase, none,
    some salesRecord, k, [], -salesRecord.totalAmount⟩

/-- `reconcileDatasets` from `src/lib/reconciliation.ts`: build both maps,
emit one result per purchase-map entry, then one per sales-map entry whose
key was not processed (after the first loop, the processed keys are exactly
the purchase map's keys). -/
def reconcileDatasets (purchaseRecords salesRecords : List FinancialRecord) :
    List ReconciliationResult :=
  let purchaseMap := buildMap purchaseRecords
  let salesMap := buildMap salesRecords
  let afterPurchase := purchaseMap.foldl
    (fun results kp =>
      results ++ [processPurchase salesMap results.length kp.1 kp.2]) []
  salesMap.foldl
    (fun results kp =>
      if purchaseMap.any (fun q => q.1 == kp.1) then results
      else results ++ [mkMissingInPurchase results.length kp.1 kp.2])
    afterPurchase

/-- JavaScript `Math.round` on the (non-negative, exact) rationals the
summary produces: round half toward positive infinity. -/
def jsRound (q : ℚ) : ℤ := ⌊q + 1 / 2⌋

/-- `calculateSummary` from `src/lib/reconciliation.ts`. -/
def calculateSummary (results : List ReconciliationResult) :
    ReconciliationSummary :=
  let totalRecords := results.length
  let matchedCount := (results.filter
    (fun r => decide (r.status = ReconciliationStatus.matched))).length
  let mismatchedCount := (results.filter
    (fun r => decide (r.status = ReconciliationStatus.mismatched))).length
  let missingInPurchaseCount := (results.filter
    (fun r => decide (r.status = ReconciliationStatus.missing_in_purchase))).length
  let missingInSalesCount := (results.filter
    (fun r => decide (r.status = ReconciliationStatus.missing_in_sales))).length
  let matchPercentage := if totalRecords > 0 then
      jsRound ((matchedCount : ℚ) / (totalRecords : ℚ) * 100)
    else 0
  let totalDifferenceAmount := results.foldl
    (fun sum r => sum + jsAbs r.totalDifference) 0
  ⟨totalRecords, matchedCount, mismatchedCount, missingInPurchaseCount,
    missingInSalesCount, matchPercentage, totalDifferenceAmount⟩

/-- `getStatusLabel` from `src/lib/reconciliation.ts`. -/
def getStatusLabel : ReconciliationStatus → String
  | ReconciliationStatus.matched => "Matched"
  | ReconciliationStatus.mismatched => "Mismatched"
  | ReconciliationStatus.missing_in_purchase => "Missing in Purchase"
  | ReconciliationStatus.missing_in_sales => "Missing in Sales"

lemma isDigit_not_whitespace {c : Char} (h : c.isDigit = true) :
    c.isWhitespace = false := by
  cases hw : c.isWhitespace
  · rfl
  · exfalso
    simp only [Char.isWhitespace] at hw
    simp only [Bool.or_eq_true, decide_eq_true_eq] at hw
    rcases hw with ((h1 | h1) | h1) | h1 <;> subst h1 <;> exact absurd h (by decide)

lemma dropWhile_eq_self_of {p : Char → Bool} {l : List Char}
    (h : ∀ c ∈ l, p c = false) : l.dropWhile p = l := by
  cases l with
  | nil => rfl
  | cons a t => rw [List.dropWhile_cons, h a (by simp)]; simp

lemma jsTrim_eq_self {s : String} (h : ∀ c ∈ s.data, c.isWhitespace = false) :
    jsTrim s = s := by
  unfold jsTrim
  rw [dropWhile_eq_self_of h, dropWhile_eq_self_of (by intro c hc; exact h c (by simpa using hc))]
  cases s
  simp

/-- C10: generateMatchKey reads only the invoiceNo and invoiceDate fields. -/
theorem generateMatchKey_ignores_other_fields (r1 r2 : FinancialRecord)
    (hno : r1.invoiceNo = r2.invoiceNo) (hdate : r1.invoiceDate = r2.invoiceDate) :
    generateMatchKey r1 = generateMatchKey r2 := by
  simp [generateMatchKey, hno, hdate]

def W1 : FinancialRecord :=
  ⟨"a", "G1", "Alpha", "INV-9", "2024-02-02", 1, 2, 3, 4, 10, [("X", Sum.inl "y")]⟩

def W2 : FinancialRecord :=
  ⟨"b", "G2", "Beta", "INV-9", "2024-02-02", 5, 6, 7, 8, 99, []⟩

theorem generateMatchKey_ignores_other_fields_witness :
    W1.gstin ≠ W2.gstin ∧ W1.totalAmount ≠ W2.totalAmount ∧
      generateMatchKey W1 = generateMatchKey W2 :=
  ⟨by decide, by decide, generateMatchKey_ignores_other_fields W1 W2 rfl rfl⟩

lemma normalizeDate_unrecognized {d : String}
    (hi : isoFormat (jsTrim d).data = false)
    (hn : indianFormat (jsTrim d).data = false) :
    normalizeDate d = jsTrim d := by
  by_cases hd : d = ""
  · subst hd; rfl
  · simp only [normalizeDate]
    rw [if_neg hd]
    simp [hi, hn]

lemma string_append_right_cancel {a t1 t2 : String} (h : a ++ t1 = a ++ t2) :
    t1 = t2 := by
  have hd : a.data ++ t1.data = a.data ++ t2.data := congrArg String.data h
  have h2 := List.append_cancel_left hd
  cases t1; cases t2
  exact congrArg String.mk h2

/-- C6 (amended): on an unrecognized date format the trimmed raw string is the
date component, and records with the same invoice number whose unrecognized
dates differ after trimming get different keys. -/
theorem generateMatchKey_unrecognized_dates (r1 r2 : FinancialRecord)
    (h1i : isoFormat (jsTrim r1.invoiceDate).data = false)
    (h1n : indianFormat (jsTrim r1.invoiceDate).data = false)
    (h2i : isoFormat (jsTrim r2.invoiceDate).data = false)
    (h2n : indianFormat (jsTrim r2.invoiceDate).data = false)
    (hinv : r1.invoiceNo = r2.invoiceNo)
    (hdates : jsTrim r1.invoiceDate ≠ jsTrim r2.invoiceDate) :
    normalizeDate r1.invoiceDate = jsTrim r1.invoiceDate ∧
    normalizeDate r2.invoiceDate = jsTrim r2.invoiceDate ∧
    generateMatchKey r1 ≠ generateMatchKey r2 := by
  refine ⟨normalizeDate_unrecognized h1i h1n, normalizeDate_unrecognized h2i h2n, ?_⟩
  intro hkey
  apply hdates
  have e1 : generateMatchKey r1 =
      (normalizeInvoiceNo r2.invoiceNo ++ "|") ++ jsTrim r1.invoiceDate := by
    rw [generateMatchKey, hinv, normalizeDate_unrecognized h1i h1n, String.append_assoc]
  have e2 : generateMatchKey r2 =
      (normalizeInvoiceNo r2.invoiceNo ++ "|") ++ jsTrim r2.invoiceDate := by
    rw [generateMatchKey, normalizeDate_unrecognized h2i h2n, String.append_assoc]
  rw [e1, e2] at hkey
  exact string_append_right_cancel hkey

def C6a : FinancialRecord := ⟨"a", "", "", "INV-1", "Jan 5 2024", 0, 0, 0, 0, 0, []⟩

def C6b : FinancialRecord := ⟨"b", "", "", "INV-1", " Jan 5 2024 ", 0, 0, 0, 0, 0, []⟩

/-- C6 (counterexample): two records with the same invoice number whose
unrecognized date strings differ textually (only in surrounding whitespace)
still receive the same match key, because the raw date is trimmed first. -/
theorem generateMatchKey_unrecognized_counterexample :
    C6a.invoiceDate ≠ C6b.invoiceDate ∧
    isoFormat (jsTrim C6a.invoiceDate).data = false ∧
    indianFormat (jsTrim C6a.invoiceDate).data = false ∧
    isoFormat (jsTrim C6b.invoiceDate).data = false ∧
    indianFormat (jsTrim C6b.invoiceDate).data = false ∧
    generateMatchKey C6a = generateMatchKey C6b := by decide

def C6c : FinancialRecord := ⟨"a", "", "", "INV-1", "Jan 5 2024", 0, 0, 0, 0, 0, []⟩

def C6d : FinancialRecord := ⟨"b", "", "", "INV-1", "5 Jan 2024", 0, 0, 0, 0, 0, []⟩

theorem generateMatchKey_unrecognized_dates_witness :
    normalizeDate C6c.invoiceDate = jsTrim C6c.invoiceDate ∧
    normalizeDate C6d.invoiceDate = jsTrim C6d.invoiceDate ∧
    generateMatchKey C6c ≠ generateMatchKey C6d :=
  generateMatchKey_unrecognized_dates C6c C6d (by decide) (by decide) (by decide)
    (by decide) rfl (by decide)


lemma mk_cons_ne_empty {c : Char} {l : List Char} : String.mk (c :: l) ≠ "" := by
  intro h
  have := congrArg String.data h
  simp at this

lemma normalizeDate_iso (y1 y2 y3 y4 m1 m2 d1 d2 : Char)
    (hy1 : y1.isDigit = true) (hy2 : y2.isDigit = true)
    (hy3 : y3.isDigit = true) (hy4 : y4.isDigit = true)
    (hm1 : m1.isDigit = true) (hm2 : m2.isDigit = true)
    (hd1 : d1.isDigit = true) (hd2 : d2.isDigit = true) :
    normalizeDate (String.mk [y1, y2, y3, y4, '-', m1, m2, '-', d1, d2])
      = String.mk [y1, y2, y3, y4, '-', m1, m2, '-', d1, d2] := by
  have hws : ∀ c ∈ [y1, y2, y3, y4, '-', m1, m2, '-', d1, d2],
      c.isWhitespace = false := by
    intro c hc
    simp only [List.mem_cons, List.not_mem_nil, or_false] at hc
    rcases hc with h | h | h | h | h | h | h | h | h | h <;> subst h <;>
      first
        | exact isDigit_not_whitespace (by assumption)
        | decide
  have htrim : jsTrim (String.mk [y1, y2, y3, y4, '-', m1, m2, '-', d1, d2])
      = String.mk [y1, y2, y3, y4, '-', m1, m2, '-', d1, d2] :=
    jsTrim_eq_self hws
  have hiso : isoFormat [y1, y2, y3, y4, '-', m1, m2, '-', d1, d2] = true := by
    simp [isoFormat, hy1, hy2, hy3, hy4, hm1, hm2, hd1, hd2]
  simp only [normalizeDate, if_neg mk_cons_ne_empty, htrim]
  simp [hiso]

lemma normalizeDate_indian (d1 d2 m1 m2 y1 y2 y3 y4 sep1 sep2 : Char)
    (hd1 : d1.isDigit = true) (hd2 : d2.isDigit = true)
    (hm1 : m1.isDigit = true) (hm2 : m2.isDigit = true)
    (hy1 : y1.isDigit = true) (hy2 : y2.isDigit = true)
    (hy3 : y3.isDigit = true) (hy4 : y4.isDigit = true)
    (hs1 : sep1 = '-' ∨ sep1 = '/') (hs2 : sep2 = '-' ∨ sep2 = '/') :
    normalizeDate (String.mk [d1, d2, sep1, m1, m2, sep2, y1, y2, y3, y4])
      = String.mk [y1, y2, y3, y4, '-', m1, m2, '-', d1, d2] := by
  have hnds1 : sep1.isDigit = false := by
    rcases hs1 with h | h <;> subst h <;> decide
  have hsep1 : (sep1 == '-' || sep1 == '/') = true := by
    rcases hs1 with h | h <;> subst h <;> decide
  have hsep2 : (sep2 == '-' || sep2 == '/') = true := by
    rcases hs2 with h | h <;> subst h <;> decide
  have hws : ∀ c ∈ [d1, d2, sep1, m1, m2, sep2, y1, y2, y3, y4],
      c.isWhitespace = false := by
    intro c hc
    simp only [List.mem_cons, List.not_mem_nil, or_false] at hc
    rcases hc with h | h | h | h | h | h | h | h | h | h <;> subst h <;>
      first
        | exact isDigit_not_whitespace (by assumption)
        | (rcases hs1 with h | h <;> subst h <;> decide)
        | (rcases hs2 with h | h <;> subst h <;> decide)
  have htrim : jsTrim (String.mk [d1, d2, sep1, m1, m2, sep2, y1, y2, y3, y4])
      = String.mk [d1, d2, sep1, m1, m2, sep2, y1, y2, y3, y4] :=
    jsTrim_eq_self hws
  have hiso : isoFormat [d1, d2, sep1, m1, m2, sep2, y1, y2, y3, y4] = false := by
    simp [isoFormat, hnds1]
  have hind : indianFormat [d1, d2, sep1, m1, m2, sep2, y1, y2, y3, y4] = true := by
    simp [indianFormat, hd1, hd2, hm1, hm2, hy1, hy2, hy3, hy4, hsep1, hsep2]
  simp only [normalizeDate, if_neg mk_cons_ne_empty, htrim]
  simp [hiso, hind, rewriteIndian]

/-- C5: a record whose date is in DD-MM-YYYY or DD/MM/YYYY format gets the
same match key as the same record with that date written YYYY-MM-DD; in
particular the keys for "2024-01-05", "05-01-2024" and "05/01/2024" agree
for every invoice number. -/
theorem generateMatchKey_date_equiv (r : FinancialRecord)
    (d1 d2 m1 m2 y1 y2 y3 y4 sep1 sep2 : Char)
    (hd1 : d1.isDigit = true) (hd2 : d2.isDigit = true)
    (hm1 : m1.isDigit = true) (hm2 : m2.isDigit = true)
    (hy1 : y1.isDigit = true) (hy2 : y2.isDigit = true)
    (hy3 : y3.isDigit = true) (hy4 : y4.isDigit = true)
    (hs1 : sep1 = '-' ∨ sep1 = '/') (hs2 : sep2 = '-' ∨ sep2 = '/') :
    generateMatchKey { r with invoiceDate := String.mk [d1, d2, sep1, m1, m2, sep2, y1, y2, y3, y4] }
      = generateMatchKey { r with invoiceDate := String.mk [y1, y2, y3, y4, '-', m1, m2, '-', d1, d2] } ∧
    generateMatchKey { r with invoiceDate := "05-01-2024" }
      = generateMatchKey { r with invoiceDate := "2024-01-05" } ∧
    generateMatchKey { r with invoiceDate := "05/01/2024" }
      = generateMatchKey { r with invoiceDate := "2024-01-05" } := by
  refine ⟨?_, ?_, ?_⟩
  · simp only [generateMatchKey]
    rw [normalizeDate_indian d1 d2 m1 m2 y1 y2 y3 y4 sep1 sep2 hd1 hd2 hm1 hm2
      hy1 hy2 hy3 hy4 hs1 hs2,
      normalizeDate_iso y1 y2 y3 y4 m1 m2 d1 d2 hy1 hy2 hy3 hy4 hm1 hm2 hd1 hd2]
  · have h1 : normalizeDate "05-01-2024" = normalizeDate "2024-01-05" := by decide
    simp [generateMatchKey, h1]
  · have h1 : normalizeDate "05/01/2024" = normalizeDate "2024-01-05" := by decide
    simp [generateMatchKey, h1]

theorem generateMatchKey_date_equiv_witness :
    generateMatchKey { W1 with invoiceDate := String.mk ['0', '5', '-', '0', '1', '-', '2', '0', '2', '4'] }
      = generateMatchKey { W1 with invoiceDate := String.mk ['2', '0', '2', '4', '-', '0', '1', '-', '0', '5'] } :=
  (generateMatchKey_date_equiv W1 '0' '5' '0' '1' '2' '0' '2' '4' '-' '-'
    (by decide) (by decide) (by decide) (by decide) (by decide) (by decide)
    (by decide) (by decide) (Or.inl rfl) (Or.inl rfl)).1


lemma status_counts_sum (rs : List ReconciliationResult) :
    (rs.filter (fun r => decide (r.status = ReconciliationStatus.matched))).length +
    (rs.filter (fun r => decide (r.status = ReconciliationStatus.mismatched))).length +
    (rs.filter (fun r => decide (r.status = ReconciliationStatus.missing_in_purchase))).length +
    (rs.filter (fun r => decide (r.status = ReconciliationStatus.missing_in_sales))).length
      = rs.length := by
  induction rs with
  | nil => rfl
  | cons r t ih =>
    simp only [List.filter_cons, List.length_cons]
    cases h : r.status <;> simp only [h] <;> simp +decide <;> omega

/-- C4: every result status is one of the four enumeration values, and the
four per-status counts of calculateSummary sum exactly to totalRecords,
which is the input list's length. -/
theorem calculateSummary_partition (rs : List ReconciliationResult) :
    (calculateSummary rs).totalRecords = rs.length ∧
    (∀ r ∈ rs, r.status = ReconciliationStatus.matched ∨
      r.status = ReconciliationStatus.mismatched ∨
      r.status = ReconciliationStatus.missing_in_purchase ∨
      r.status = ReconciliationStatus.missing_in_sales) ∧
    (calculateSummary rs).matchedCount + (calculateSummary rs).mismatchedCount +
      (calculateSummary rs).missingInPurchaseCount +
      (calculateSummary rs).missingInSalesCount
      = (calculateSummary rs).totalRecords := by
  refine ⟨rfl, ?_, ?_⟩
  · intro r _
    cases r.status <;> simp
  · simpa [calculateSummary] using status_counts_sum rs

def R1 : ReconciliationResult :=
  ⟨"result-0", ReconciliationStatus.matched, some W1, some W2, "k", [], 0⟩

def R2 : ReconciliationResult :=
  ⟨"result-1", ReconciliationStatus.missing_in_sales, some W1, none, "k2", [], 10⟩

theorem calculateSummary_partition_witness :
    (calculateSummary [R1, R2]).matchedCount +
      (calculateSummary [R1, R2]).mismatchedCount +
      (calculateSummary [R1, R2]).missingInPurchaseCount +
      (calculateSummary [R1, R2]).missingInSalesCount
      = (calculateSummary [R1, R2]).totalRecords :=
  (calculateSummary_partition [R1, R2]).2.2

/-- Round half away from zero, the rounding the specification names for
the match percentage. -/
def roundHalfAwayFromZero (q : ℚ) : ℤ :=
  if 0 ≤ q then ⌊q + 1 / 2⌋ else -⌊-q + 1 / 2⌋

/-- C9: the match percentage is 0 on an empty result list and otherwise is
matchedCount / totalRecords * 100 rounded half away from zero (for these
non-negative arguments JavaScript Math.round agrees with that rounding). -/
theorem calculateSummary_matchPercentage (rs : List ReconciliationResult) :
    ((calculateSummary rs).totalRecords = 0 →
      (calculateSummary rs).matchPercentage = 0) ∧
    (0 < (calculateSummary rs).totalRecords →
      (calculateSummary rs).matchPercentage =
        roundHalfAwayFromZero (((calculateSummary rs).matchedCount : ℚ) /
          ((calculateSummary rs).totalRecords : ℚ) * 100)) := by
  constructor
  · intro h
    simp only [calculateSummary] at h ⊢
    simp [h]
  · intro h
    simp only [calculateSummary] at h ⊢
    have hq : (0 : ℚ) ≤
        ((rs.filter (fun r => decide (r.status = ReconciliationStatus.matched))).length : ℚ) /
          (rs.length : ℚ) * 100 := by positivity
    rw [if_pos h, roundHalfAwayFromZero, if_pos hq, jsRound]

theorem calculateSummary_matchPercentage_witness :
    (calculateSummary []).matchPercentage = 0 ∧
    (calculateSummary [R1, R2]).matchPercentage =
      roundHalfAwayFromZero (((calculateSummary [R1, R2]).matchedCount : ℚ) /
        ((calculateSummary [R1, R2]).totalRecords : ℚ) * 100) :=
  ⟨(calculateSummary_matchPercentage []).1 rfl,
    (calculateSummary_matchPercentage [R1, R2]).2 (by decide)⟩


lemma jsAbs_eq_abs (q : ℚ) : jsAbs q = |q| := by
  unfold jsAbs
  split
  · exact (abs_of_neg (by assumption)).symm
  · exact (abs_of_nonneg (le_of_not_lt (by assumption))).symm

lemma mem_amountReason_iff {m : MismatchReason} {L : String} {a b : ℚ} :
    m ∈ amountReason L a b ↔
      1 < |a - b| ∧ m = ⟨L, Sum.inr a, Sum.inr b, some (a - b)⟩ := by
  unfold amountReason compareAmounts AMOUNT_TOLERANCE
  rw [jsAbs_eq_abs]
  by_cases h : |a - b| ≤ 1
  · simp [h, (not_lt.2 h : ¬ 1 < |a - b|)]
  · have h1 : 1 < |a - b| := not_le.1 h
    simp [h, h1]

lemma amountReason_nil {L : String} {a b : ℚ} (h : |a - b| ≤ 1) :
    amountReason L a b = [] := by
  unfold amountReason compareAmounts AMOUNT_TOLERANCE
  rw [jsAbs_eq_abs]
  simp [h]

lemma amountReason_of_gt {L : String} {a b : ℚ} (h : 1 < |a - b|) :
    amountReason L a b = [⟨L, Sum.inr a, Sum.inr b, some (a - b)⟩] := by
  unfold amountReason compareAmounts AMOUNT_TOLERANCE
  rw [jsAbs_eq_abs]
  simp [(not_le.2 h : ¬ |a - b| ≤ 1)]

lemma mem_gstinReason_iff {m : MismatchReason} {p s : FinancialRecord} :
    m ∈ gstinReason p s ↔
      (jsTrim (toUpperStr p.gstin) ≠ "" ∧ jsTrim (toUpperStr s.gstin) ≠ "" ∧
        jsTrim (toUpperStr p.gstin) ≠ jsTrim (toUpperStr s.gstin)) ∧
      m = ⟨"GSTIN", Sum.inl p.gstin, Sum.inl s.gstin, none⟩ := by
  unfold gstinReason
  by_cases h : jsTrim (toUpperStr p.gstin) ≠ "" ∧ jsTrim (toUpperStr s.gstin) ≠ "" ∧
      jsTrim (toUpperStr p.gstin) ≠ jsTrim (toUpperStr s.gstin)
  · simp [h]
  · simp [h]

lemma mem_partyNameReason_iff {m : MismatchReason} {p s : FinancialRecord} :
    m ∈ partyNameReason p s ↔
      (jsTrim (toLowerStr p.partyName) ≠ "" ∧ jsTrim (toLowerStr s.partyName) ≠ "" ∧
        jsTrim (toLowerStr p.partyName) ≠ jsTrim (toLowerStr s.partyName) ∧
        jsIncludes (jsTrim (toLowerStr p.partyName)) (jsTrim (toLowerStr s.partyName)) = false ∧
        jsIncludes (jsTrim (toLowerStr s.partyName)) (jsTrim (toLowerStr p.partyName)) = false) ∧
      m = ⟨"Party Name", Sum.inl p.partyName, Sum.inl s.partyName, none⟩ := by
  unfold partyNameReason
  by_cases h : jsTrim (toLowerStr p.partyName) ≠ "" ∧ jsTrim (toLowerStr s.partyName) ≠ "" ∧
      jsTrim (toLowerStr p.partyName) ≠ jsTrim (toLowerStr s.partyName) ∧
      jsIncludes (jsTrim (toLowerStr p.partyName)) (jsTrim (toLowerStr s.partyName)) = false ∧
      jsIncludes (jsTrim (toLowerStr s.partyName)) (jsTrim (toLowerStr p.partyName)) = false
  · simp [h]
  · simp [h]

lemma mem_findMismatches_iff {p s : FinancialRecord} {m : MismatchReason} :
    m ∈ findMismatches p s ↔
      m ∈ gstinReason p s ∨ m ∈ partyNameReason p s ∨
      m ∈ amountReason "Taxable Amount" p.taxableAmount s.taxableAmount ∨
      m ∈ amountReason "IGST" p.igst s.igst ∨
      m ∈ amountReason "CGST" p.cgst s.cgst ∨
      m ∈ amountReason "SGST" p.sgst s.sgst ∨
      m ∈ amountReason "Total Amount" p.totalAmount s.totalAmount := by
  simp [findMismatches, List.mem_append, or_assoc]


lemma difference_of_field {p s : FinancialRecord} {m : MismatchReason}
    (hm : m ∈ findMismatches p s) :
    (m.field = "Taxable Amount" → m.difference = some (p.taxableAmount - s.taxableAmount)) ∧
    (m.field = "IGST" → m.difference = some (p.igst - s.igst)) ∧
    (m.field = "CGST" → m.difference = some (p.cgst - s.cgst)) ∧
    (m.field = "SGST" → m.difference = some (p.sgst - s.sgst)) ∧
    (m.field = "Total Amount" → m.difference = some (p.totalAmount - s.totalAmount)) := by
  rw [mem_findMismatches_iff] at hm
  rcases hm with h | h | h | h | h | h | h <;>
    simp only [mem_gstinReason_iff, mem_partyNameReason_iff, mem_amountReason_iff] at h <;>
    obtain ⟨-, rfl⟩ := h <;>
    refine ⟨?_, ?_, ?_, ?_, ?_⟩ <;> intro hf <;>
    first
      | rfl
      | simp at hf


lemma findMismatches_update_total (p : FinancialRecord) (t : ℚ) :
    findMismatches p { p with totalAmount := t } =
      amountReason "Total Amount" p.totalAmount t := by
  unfold findMismatches
  have hg : gstinReason p { p with totalAmount := t } = [] := by
    unfold gstinReason
    simp
  have hn : partyNameReason p { p with totalAmount := t } = [] := by
    unfold partyNameReason
    simp
  simp only [hg, hn]
  rw [amountReason_nil (a := p.taxableAmount) (b := p.taxableAmount) (by simp)]
  rw [amountReason_nil (a := p.igst) (b := p.igst) (by simp)]
  rw [amountReason_nil (a := p.cgst) (b := p.cgst) (by simp)]
  rw [amountReason_nil (a := p.sgst) (b := p.sgst) (by simp)]
  simp

lemma reconcile_single_pair (p s : FinancialRecord)
    (hk : generateMatchKey s = generateMatchKey p) :
    reconcileDatasets [p] [s] =
      [processPurchase [(generateMatchKey s, s)] 0 (generateMatchKey p) p] := by
  unfold reconcileDatasets buildMap
  simp [mapSet, hk]


/-- C3: each of the five amount fields is flagged by findMismatches exactly
when the absolute difference exceeds the tolerance 1, with the signed
difference purchase minus sales attached; a total-amount gap of exactly 1
still matches while 1.01 mismatches with difference 1.01. -/
theorem findMismatches_amount_tolerance (p s : FinancialRecord) :
    ((∃ m ∈ findMismatches p s, m.field = "Taxable Amount") ↔
      1 < |p.taxableAmount - s.taxableAmount|) ∧
    (∀ m ∈ findMismatches p s, m.field = "Taxable Amount" →
      m.difference = some (p.taxableAmount - s.taxableAmount)) ∧
    ((∃ m ∈ findMismatches p s, m.field = "IGST") ↔ 1 < |p.igst - s.igst|) ∧
    (∀ m ∈ findMismatches p s, m.field = "IGST" →
      m.difference = some (p.igst - s.igst)) ∧
    ((∃ m ∈ findMismatches p s, m.field = "CGST") ↔ 1 < |p.cgst - s.cgst|) ∧
    (∀ m ∈ findMismatches p s, m.field = "CGST" →
      m.difference = some (p.cgst - s.cgst)) ∧
    ((∃ m ∈ findMismatches p s, m.field = "SGST") ↔ 1 < |p.sgst - s.sgst|) ∧
    (∀ m ∈ findMismatches p s, m.field = "SGST" →
      m.difference = some (p.sgst - s.sgst)) ∧
    ((∃ m ∈ findMismatches p s, m.field = "Total Amount") ↔
      1 < |p.totalAmount - s.totalAmount|) ∧
    (∀ m ∈ findMismatches p s, m.field = "Total Amount" →
      m.difference = some (p.totalAmount - s.totalAmount)) ∧
    (∀ t : ℚ, |p.totalAmount - t| = 1 →
      (reconcileDatasets [p] [{ p with totalAmount := t }]).map (fun r => r.status)
        = [ReconciliationStatus.matched]) ∧
    (∀ t : ℚ, p.totalAmount - t = 101 / 100 →
      (reconcileDatasets [p] [{ p with totalAmount := t }]).map
          (fun r => (r.status, r.mismatchReasons.map (fun m => (m.field, m.difference))))
        = [(ReconciliationStatus.mismatched, [("Total Amount", some (101 / 100))])]) := by
  refine ⟨?_, ?_, ?_, ?_, ?_, ?_, ?_, ?_, ?_, ?_, ?_, ?_⟩
  · simp +decide [mem_findMismatches_iff, mem_gstinReason_iff, mem_partyNameReason_iff,
      mem_amountReason_iff, or_and_right, exists_or, and_assoc, exists_and_left,
      exists_eq_left]
  · intro m hm; exact (difference_of_field hm).1
  · simp +decide [mem_findMismatches_iff, mem_gstinReason_iff, mem_partyNameReason_iff,
      mem_amountReason_iff, or_and_right, exists_or, and_assoc, exists_and_left,
      exists_eq_left]
  · intro m hm; exact (difference_of_field hm).2.1
  · simp +decide [mem_findMismatches_iff, mem_gstinReason_iff, mem_partyNameReason_iff,
      mem_amountReason_iff, or_and_right, exists_or, and_assoc, exists_and_left,
      exists_eq_left]
  · intro m hm; exact (difference_of_field hm).2.2.1
  · simp +decide [mem_findMismatches_iff, mem_gstinReason_iff, mem_partyNameReason_iff,
      mem_amountReason_iff, or_and_right, exists_or, and_assoc, exists_and_left,
      exists_eq_left]
  · intro m hm; exact (difference_of_field hm).2.2.2.1
  · simp +decide [mem_findMismatches_iff, mem_gstinReason_iff, mem_partyNameReason_iff,
      mem_amountReason_iff, or_and_right, exists_or, and_assoc, exists_and_left,
      exists_eq_left]
  · intro m hm; exact (difference_of_field hm).2.2.2.2
  · intro t ht
    have hk : generateMatchKey { p with totalAmount := t } = generateMatchKey p := rfl
    rw [reconcile_single_pair p _ hk]
    have hget : mapGet [(generateMatchKey { p with totalAmount := t },
        ({ p with totalAmount := t } : FinancialRecord))] (generateMatchKey p)
        = some { p with totalAmount := t } := by
      simp [mapGet, hk]
    unfold processPurchase
    rw [hget]
    simp [findMismatches_update_total, amountReason_nil (le_of_eq ht)]
  · intro t ht
    have h1 : (1 : ℚ) < |p.totalAmount - t| := by
      rw [ht, abs_of_nonneg (by norm_num : (0 : ℚ) ≤ 101 / 100)]
      norm_num
    have hk : generateMatchKey { p with totalAmount := t } = generateMatchKey p := rfl
    rw [reconcile_single_pair p _ hk]
    have hget : mapGet [(generateMatchKey { p with totalAmount := t },
        ({ p with totalAmount := t } : FinancialRecord))] (generateMatchKey p)
        = some { p with totalAmount := t } := by
      simp [mapGet, hk]
    unfold processPurchase
    rw [hget]
    simp [findMismatches_update_total, amountReason_of_gt h1, ht]


unseal Rat.sub Rat.add Rat.mul Rat.inv

theorem findMismatches_amount_tolerance_witness :
    (reconcileDatasets [W1] [{ W1 with totalAmount := W1.totalAmount - 1 }]).map
        (fun r => r.status) = [ReconciliationStatus.matched] :=
  (findMismatches_amount_tolerance W1 W1).2.2.2.2.2.2.2.2.2.2.1
    (W1.totalAmount - 1) (by norm_num [W1])

def HCLp : FinancialRecord :=
  ⟨"p1", "27AB", "HCL Technologies", "INV-7", "2024-03-01", 100, 18, 0, 0, 118, []⟩

def HCLs : FinancialRecord :=
  ⟨"s1", "27AB", "HCL Technologies Ltd", "INV-7", "2024-03-01", 100, 18, 0, 0, 118, []⟩

/-- C7: a Party Name reason appears exactly when both normalized names are
non-empty, differ, and neither contains the other; in particular the pair
"HCL Technologies" / "HCL Technologies Ltd", identical otherwise, matches
with no reason at all. -/
theorem findMismatches_party_name (p s : FinancialRecord) :
    ((∃ m ∈ findMismatches p s, m.field = "Party Name") ↔
      jsTrim (toLowerStr p.partyName) ≠ "" ∧ jsTrim (toLowerStr s.partyName) ≠ "" ∧
      jsTrim (toLowerStr p.partyName) ≠ jsTrim (toLowerStr s.partyName) ∧
      jsIncludes (jsTrim (toLowerStr p.partyName)) (jsTrim (toLowerStr s.partyName)) = false ∧
      jsIncludes (jsTrim (toLowerStr s.partyName)) (jsTrim (toLowerStr p.partyName)) = false) ∧
    findMismatches HCLp HCLs = [] ∧
    (reconcileDatasets [HCLp] [HCLs]).map (fun r => (r.status, r.mismatchReasons))
      = [(ReconciliationStatus.matched, [])] := by
  refine ⟨?_, by decide, by decide⟩
  simp +decide [mem_findMismatches_iff, mem_gstinReason_iff, mem_partyNameReason_iff,
    mem_amountReason_iff, or_and_right, exists_or, and_assoc, exists_and_left,
    exists_eq_left]

theorem findMismatches_party_name_witness :
    ∃ m ∈ findMismatches W1 W2, m.field = "Party Name" :=
  (findMismatches_party_name W1 W2).1.mpr (by decide)


/-- Index-threaded emission: the list of results produced by a loop that
appends one element per entry, carrying the running `results.length`. -/
def emitIdx {α β : Type} (g : Nat → α → β) : Nat → List α → List β
  | _, [] => []
  | n, a :: as => g n a :: emitIdx g (n + 1) as

lemma length_emitIdx {α β : Type} (g : Nat → α → β) :
    ∀ (n : Nat) (l : List α), (emitIdx g n l).length = l.length := by
  intro n l
  induction l generalizing n with
  | nil => rfl
  | cons a t ih => simp [emitIdx, ih]

lemma mem_emitIdx {α β : Type} {g : Nat → α → β} :
    ∀ {n : Nat} {l : List α} {b : β}, b ∈ emitIdx g n l →
      ∃ m a, a ∈ l ∧ b = g m a := by
  intro n l
  induction l generalizing n with
  | nil => intro b hb; simp [emitIdx] at hb
  | cons a t ih =>
    intro b hb
    simp only [emitIdx, List.mem_cons] at hb
    rcases hb with hb | hb
    · exact ⟨n, a, by simp, hb⟩
    · obtain ⟨m, a', ha', hb'⟩ := ih hb
      exact ⟨m, a', by simp [ha'], hb'⟩

lemma mem_emitIdx_of_mem {α β : Type} {g : Nat → α → β} {a : α} :
    ∀ {l : List α}, a ∈ l → ∀ n, ∃ m, g m a ∈ emitIdx g n l := by
  intro l
  induction l with
  | nil => intro h; simp at h
  | cons x t ih =>
    intro h n
    rcases List.mem_cons.1 h with h | h
    · subst h; exact ⟨n, by simp [emitIdx]⟩
    · obtain ⟨m, hm⟩ := ih h (n + 1)
      exact ⟨m, by simp [emitIdx, hm]⟩

lemma map_emitIdx {α β γ : Type} {g : Nat → α → β} {f : β → γ} {h : α → γ}
    (hgf : ∀ n a, f (g n a) = h a) :
    ∀ (n : Nat) (l : List α), (emitIdx g n l).map f = l.map h := by
  intro n l
  induction l generalizing n with
  | nil => rfl
  | cons a t ih => simp [emitIdx, hgf, ih]

lemma foldl_append_processPurchase (sm : RecMap) :
    ∀ (pm : RecMap) (init : List ReconciliationResult),
      pm.foldl (fun results kp =>
          results ++ [processPurchase sm results.length kp.1 kp.2]) init
        = init ++ emitIdx (fun n kp => processPurchase sm n kp.1 kp.2)
            init.length pm := by
  intro pm
  induction pm with
  | nil => intro init; simp [emitIdx]
  | cons kp t ih =>
    intro init
    simp only [List.foldl_cons]
    rw [ih]
    simp [emitIdx, List.length_append]

lemma foldl_filter_missing (pm : RecMap) :
    ∀ (sm : RecMap) (init : List ReconciliationResult),
      sm.foldl (fun results kp =>
          if pm.any (fun q => q.1 == kp.1) then results
          else results ++ [mkMissingInPurchase results.length kp.1 kp.2]) init
        = init ++ emitIdx (fun n kp => mkMissingInPurchase n kp.1 kp.2)
            init.length (sm.filter (fun kp => !pm.any (fun q => q.1 == kp.1))) := by
  intro sm
  induction sm with
  | nil => intro init; simp [emitIdx]
  | cons kp t ih =>
    intro init
    simp only [List.foldl_cons, List.filter_cons]
    cases h : pm.any (fun q => q.1 == kp.1) with
    | true => rw [if_pos rfl]; rw [ih]; simp [h]
    | false =>
      rw [if_neg (by simp [h])]
      rw [ih]
      simp [h, emitIdx, List.length_append]

lemma reconcileDatasets_eq (ps ss : List FinancialRecord) :
    reconcileDatasets ps ss =
      emitIdx (fun n kp => processPurchase (buildMap ss) n kp.1 kp.2) 0 (buildMap ps)
        ++ emitIdx (fun n kp => mkMissingInPurchase n kp.1 kp.2)
            ((buildMap ps).length)
            ((buildMap ss).filter
              (fun kp => !(buildMap ps).any (fun q => q.1 == kp.1))) := by
  unfold reconcileDatasets
  dsimp only
  rw [foldl_append_processPurchase, foldl_filter_missing]
  simp [length_emitIdx]


lemma mapSet_keys (m : RecMap) (k : String) (v : FinancialRecord) :
    (mapSet m k v).map Prod.fst =
      if m.any (fun p => p.1 == k) then m.map Prod.fst
      else m.map Prod.fst ++ [k] := by
  unfold mapSet
  split
  · rw [List.map_map]
    apply List.map_congr_left
    intro p _
    by_cases h : p.1 == k
    · simp only [Function.comp_apply, if_pos h]
      exact (eq_of_beq h).symm
    · simp only [Function.comp_apply, if_neg h]
  · simp

lemma nodup_keys_mapSet {m : RecMap} (k : String) (v : FinancialRecord)
    (h : (m.map Prod.fst).Nodup) : ((mapSet m k v).map Prod.fst).Nodup := by
  rw [mapSet_keys]
  split
  · exact h
  · rename_i hany
    have hk : k ∉ m.map Prod.fst := by
      intro hmem
      apply hany
      obtain ⟨p, hp, hpk⟩ := List.mem_map.1 hmem
      exact List.any_eq_true.2 ⟨p, hp, by simp [hpk]⟩
    have hdisj : (m.map Prod.fst).Disjoint [k] := by
      intro a ha hma
      simp only [List.mem_singleton] at hma
      subst hma
      exact hk ha
    exact List.nodup_append.2 ⟨h, by simp, hdisj⟩

lemma nodup_keys_buildMap (l : List FinancialRecord) :
    ((buildMap l).map Prod.fst).Nodup := by
  suffices h : ∀ (l : List FinancialRecord) (m0 : RecMap),
      (m0.map Prod.fst).Nodup →
      (((l.foldl (fun m r => mapSet m (generateMatchKey r) r) m0)).map Prod.fst).Nodup by
    exact h l [] (by simp)
  intro l
  induction l with
  | nil => intro m0 h0; simpa using h0
  | cons r t ih =>
    intro m0 h0
    exact ih _ (nodup_keys_mapSet _ _ h0)

lemma find_map_set_ne {m : RecMap} {k k' : String} {v : FinancialRecord}
    (hne : k' ≠ k) :
    (m.map (fun p => if p.1 == k then (k, v) else p)).find? (fun p => p.1 == k')
      = m.find? (fun p => p.1 == k') := by
  induction m with
  | nil => rfl
  | cons p t ih =>
    by_cases h : p.1 == k
    · have hp : p.1 = k := eq_of_beq h
      simp only [List.map_cons, if_pos h, List.find?_cons]
      have h1 : ((k, v).1 == k') = false := beq_eq_false_iff_ne.2 (Ne.symm hne)
      have h2 : (p.1 == k') = false := by
        rw [hp]
        exact beq_eq_false_iff_ne.2 (Ne.symm hne)
      rw [h1, h2]
      exact ih
    · simp only [List.map_cons, if_neg h, List.find?_cons]
      cases hpk' : (p.1 == k')
      · exact ih
      · rfl

lemma find_map_set_eq {m : RecMap} {k : String} {v : FinancialRecord}
    (hany : m.any (fun p => p.1 == k) = true) :
    (m.map (fun p => if p.1 == k then (k, v) else p)).find? (fun p => p.1 == k)
      = some (k, v) := by
  induction m with
  | nil => simp at hany
  | cons p t ih =>
    by_cases h : p.1 == k
    · simp only [List.map_cons, if_pos h, List.find?_cons]
      rw [show ((k, v).1 == k) = true by simp]
    · simp only [List.map_cons, if_neg h, List.find?_cons]
      rw [show (p.1 == k) = false by simpa using h]
      apply ih
      simpa [h] using hany

lemma mapGet_mapSet (m : RecMap) (k k' : String) (v : FinancialRecord) :
    mapGet (mapSet m k v) k' = if k' = k then some v else mapGet m k' := by
  unfold mapGet mapSet
  by_cases hany : m.any (fun p => p.1 == k) = true
  · rw [if_pos hany]
    by_cases hk : k' = k
    · subst hk
      rw [find_map_set_eq hany, if_pos rfl]
      rfl
    · rw [find_map_set_ne hk, if_neg hk]
  · rw [if_neg hany]
    rw [List.find?_append]
    by_cases hk : k' = k
    · subst hk
      have hnone : m.find? (fun p => p.1 == k') = none := by
        rw [List.find?_eq_none]
        intro p hp
        intro hc
        exact hany (List.any_eq_true.2 ⟨p, hp, hc⟩)
      rw [hnone, if_pos rfl]
      simp [Option.or]
    · have : (((k, v).1 == k')) = false := beq_eq_false_iff_ne.2 (Ne.symm hk)
      rw [if_neg hk]
      cases hf : m.find? (fun p => p.1 == k')
      · simp [Option.or, List.find?, this]
      · simp [Option.or]

lemma mapGet_foldl_set (l : List FinancialRecord) :
    ∀ (m0 : RecMap) (k : String),
      mapGet (l.foldl (fun m r => mapSet m (generateMatchKey r) r) m0) k
        = ((l.reverse.find? (fun r => generateMatchKey r == k)).map some).getD
            (mapGet m0 k) := by
  induction l with
  | nil => intro m0 k; simp
  | cons r t ih =>
    intro m0 k
    simp only [List.foldl_cons, List.reverse_cons, List.find?_append]
    rw [ih]
    cases hf : t.reverse.find? (fun r => generateMatchKey r == k)
    · simp only [Option.map_none, Option.getD, Option.or]
      rw [mapGet_mapSet]
      cases hr : (generateMatchKey r == k)
      · have : ¬ k = generateMatchKey r := by
          intro h
          subst h
          simp at hr
        rw [if_neg this]
        simp [List.find?, hr]
      · have : k = generateMatchKey r := (eq_of_beq hr).symm
        rw [if_pos this]
        simp [List.find?, hr]
    · simp [Option.or, hf]

lemma mapGet_buildMap (l : List FinancialRecord) (k : String) :
    mapGet (buildMap l) k = l.reverse.find? (fun r => generateMatchKey r == k) := by
  unfold buildMap
  rw [mapGet_foldl_set]
  cases hf : l.reverse.find? (fun r => generateMatchKey r == k)
  · simp [mapGet]
  · simp


lemma mem_of_mapGet_eq_some {m : RecMap} {k : String} {v : FinancialRecord}
    (h : mapGet m k = some v) : (k, v) ∈ m := by
  unfold mapGet at h
  cases hf : m.find? (fun p => p.1 == k) with
  | none => rw [hf] at h; simp at h
  | some p =>
    rw [hf] at h
    have hps := List.find?_some hf
    have hp : p.1 = k := eq_of_beq hps
    have hm : p ∈ m := List.mem_of_find?_eq_some hf
    have hv : p.2 = v := by simpa using h
    have : p = (k, v) := by
      cases p
      simp only [Prod.mk.injEq]
      exact ⟨hp, hv⟩
    rw [this] at hm
    exact hm

lemma mapGet_eq_some_of_mem {m : RecMap} {k : String} {v : FinancialRecord}
    (hnd : (m.map Prod.fst).Nodup) (hmem : (k, v) ∈ m) : mapGet m k = some v := by
  induction m with
  | nil => simp at hmem
  | cons p t ih =>
    rcases List.mem_cons.1 hmem with hp | hp
    · subst hp
      unfold mapGet
      simp [List.find?_cons]
    · have hk : k ∈ t.map Prod.fst :=
        List.mem_map.2 ⟨(k, v), hp, rfl⟩
      have hnd2 : (p.1 :: t.map Prod.fst).Nodup := by simpa using hnd
      obtain ⟨hnot, hndt⟩ := List.nodup_cons.1 hnd2
      have hph : p.1 ≠ k := by
        intro hc
        rw [hc] at hnot
        exact hnot hk
      unfold mapGet
      rw [List.find?_cons]
      rw [show (p.1 == k) = false from beq_eq_false_iff_ne.2 hph]
      exact ih hndt hp

lemma mapGet_isSome_iff_mem_keys {m : RecMap} {k : String} :
    (mapGet m k).isSome ↔ k ∈ m.map Prod.fst := by
  unfold mapGet
  cases hf : m.find? (fun p => p.1 == k) with
  | none =>
    constructor
    · intro h
      exact absurd h (by simp)
    · intro h
      exfalso
      obtain ⟨p, hp, hpk⟩ := List.mem_map.1 h
      have := List.find?_eq_none.1 hf p hp
      exact absurd (by simp [hpk]) this
  | some p =>
    have hps := List.find?_some hf
    have hmem := List.mem_of_find?_eq_some hf
    constructor
    · intro _
      exact List.mem_map.2 ⟨p, hmem, eq_of_beq hps⟩
    · intro _
      rfl

lemma mem_keys_buildMap_iff {l : List FinancialRecord} {k : String} :
    k ∈ (buildMap l).map Prod.fst ↔ ∃ r ∈ l, generateMatchKey r = k := by
  rw [← mapGet_isSome_iff_mem_keys, mapGet_buildMap, List.find?_isSome]
  constructor
  · rintro ⟨r, hr, hrk⟩
    exact ⟨r, List.mem_reverse.1 hr, eq_of_beq hrk⟩
  · rintro ⟨r, hr, hrk⟩
    exact ⟨r, List.mem_reverse.2 hr, by simp [hrk]⟩

lemma processPurchase_matchKey (sm : RecMap) (n : Nat) (k : String)
    (p : FinancialRecord) : (processPurchase sm n k p).matchKey = k := by
  unfold processPurchase
  cases mapGet sm k
  · rfl
  · dsimp only
    split
    · rfl
    · rfl

lemma processPurchase_purchaseRecord (sm : RecMap) (n : Nat) (k : String)
    (p : FinancialRecord) : (processPurchase sm n k p).purchaseRecord = some p := by
  unfold processPurchase
  cases mapGet sm k
  · rfl
  · dsimp only
    split
    · rfl
    · rfl

lemma processPurchase_salesRecord (sm : RecMap) (n : Nat) (k : String)
    (p : FinancialRecord) : (processPurchase sm n k p).salesRecord = mapGet sm k := by
  unfold processPurchase
  cases mapGet sm k
  · rfl
  · dsimp only
    split
    · rfl
    · rfl

lemma filter_matchKey_single {rs : List ReconciliationResult}
    {r : ReconciliationResult} {k : String}
    (hnd : (rs.map (fun x => x.matchKey)).Nodup) (hmem : r ∈ rs)
    (hk : r.matchKey = k) :
    rs.filter (fun x => x.matchKey == k) = [r] := by
  induction rs with
  | nil => simp at hmem
  | cons a t ih =>
    have hnd2 : (a.matchKey :: t.map (fun x => x.matchKey)).Nodup := by
      simpa using hnd
    obtain ⟨hnot, hndt⟩ := List.nodup_cons.1 hnd2
    rcases List.mem_cons.1 hmem with hr | hr
    · subst hr
      rw [List.filter_cons, if_pos (by simp [hk])]
      have : t.filter (fun x => x.matchKey == k) = [] := by
        rw [List.filter_eq_nil_iff]
        intro x hx hc
        apply hnot
        rw [hk, ← eq_of_beq hc]
        exact List.mem_map.2 ⟨x, hx, rfl⟩
      rw [this]
    · have hak : (a.matchKey == k) = false := by
        rw [beq_eq_false_iff_ne]
        intro hc
        apply hnot
        rw [hc, ← hk]
        exact List.mem_map.2 ⟨r, hr, rfl⟩
      rw [List.filter_cons, if_neg (by simp [hak])]
      exact ih hndt hr


lemma map_matchKey_reconcile (ps ss : List FinancialRecord) :
    (reconcileDatasets ps ss).map (fun r => r.matchKey)
      = (buildMap ps).map Prod.fst
        ++ ((buildMap ss).filter
            (fun kp => !(buildMap ps).any (fun q => q.1 == kp.1))).map Prod.fst := by
  rw [reconcileDatasets_eq, List.map_append]
  have h1 : (emitIdx (fun n kp => processPurchase (buildMap ss) n kp.1 kp.2) 0
        (buildMap ps)).map (fun r => r.matchKey)
      = (buildMap ps).map (fun kp => kp.1) :=
    map_emitIdx (fun n kp => processPurchase_matchKey (buildMap ss) n kp.1 kp.2) 0
      (buildMap ps)
  have h2 : (emitIdx (fun n kp => mkMissingInPurchase n kp.1 kp.2)
        ((buildMap ps).length)
        ((buildMap ss).filter
          (fun kp => !(buildMap ps).any (fun q => q.1 == kp.1)))).map
          (fun r => r.matchKey)
      = ((buildMap ss).filter
          (fun kp => !(buildMap ps).any (fun q => q.1 == kp.1))).map
          (fun kp => kp.1) :=
    map_emitIdx
      (fun (n : Nat) (kp : String × FinancialRecord) =>
        show (mkMissingInPurchase n kp.1 kp.2).matchKey = kp.1 from rfl) _ _
  rw [h1, h2]

lemma nodup_matchKey_reconcile (ps ss : List FinancialRecord) :
    ((reconcileDatasets ps ss).map (fun r => r.matchKey)).Nodup := by
  rw [map_matchKey_reconcile]
  rw [List.nodup_append]
  refine ⟨nodup_keys_buildMap ps, ?_, ?_⟩
  · exact ((List.filter_sublist _).map Prod.fst).nodup (nodup_keys_buildMap ss)
  · intro a ha hb
    obtain ⟨kp, hkp, hkpa⟩ := List.mem_map.1 hb
    obtain ⟨hkpm, hkpc⟩ := List.mem_filter.1 hkp
    obtain ⟨q, hq, hqa⟩ := List.mem_map.1 ha
    have : (buildMap ps).any (fun q => q.1 == kp.1) = true :=
      List.any_eq_true.2 ⟨q, hq, by simp [hqa, hkpa]⟩
    simp [this] at hkpc

lemma mem_matchKey_reconcile_iff (ps ss : List FinancialRecord) (k : String) :
    k ∈ (reconcileDatasets ps ss).map (fun r => r.matchKey) ↔
      k ∈ (ps ++ ss).map generateMatchKey := by
  rw [map_matchKey_reconcile, List.mem_append, List.map_append, List.mem_append]
  have hps : k ∈ (buildMap ps).map Prod.fst ↔ k ∈ ps.map generateMatchKey := by
    rw [mem_keys_buildMap_iff]
    simp [eq_comm]
  have hss : k ∈ (buildMap ss).map Prod.fst ↔ k ∈ ss.map generateMatchKey := by
    rw [mem_keys_buildMap_iff]
    simp [eq_comm]
  constructor
  · rintro (h | h)
    · exact Or.inl (hps.1 h)
    · obtain ⟨kp, hkp, hkpa⟩ := List.mem_map.1 h
      have hkpm := (List.mem_filter.1 hkp).1
      exact Or.inr (hss.1 (List.mem_map.2 ⟨kp, hkpm, hkpa⟩))
  · intro h
    by_cases hmem : k ∈ (buildMap ps).map Prod.fst
    · exact Or.inl hmem
    · rcases h with h | h
      · exact Or.inl (hps.2 h)
      · right
        obtain ⟨kp, hkpm, hkpa⟩ := List.mem_map.1 (hss.2 h)
        have hcond : (buildMap ps).any (fun q => q.1 == kp.1) = false := by
          rw [List.any_eq_false]
          intro q hq hc
          apply hmem
          rw [← hkpa, ← eq_of_beq hc]
          exact List.mem_map.2 ⟨q, hq, rfl⟩
        exact List.mem_map.2 ⟨kp, List.mem_filter.2 ⟨hkpm, by simp [hcond]⟩, hkpa⟩

/-- C8: one result per distinct match key encountered in either dataset
(no duplicates, no extras), and the record attached for a key is the last
record in that input collection generating the key (last-write-wins). -/
theorem reconcile_one_result_per_key (ps ss : List FinancialRecord) :
    ((reconcileDatasets ps ss).map (fun r => r.matchKey)).Nodup ∧
    (∀ k, k ∈ (reconcileDatasets ps ss).map (fun r => r.matchKey) ↔
      k ∈ (ps ++ ss).map generateMatchKey) ∧
    (∀ r ∈ reconcileDatasets ps ss, ∀ p, r.purchaseRecord = some p →
      ps.reverse.find? (fun x => generateMatchKey x == r.matchKey) = some p) ∧
    (∀ r ∈ reconcileDatasets ps ss, ∀ s, r.salesRecord = some s →
      ss.reverse.find? (fun x => generateMatchKey x == r.matchKey) = some s) := by
  refine ⟨nodup_matchKey_reconcile ps ss, mem_matchKey_reconcile_iff ps ss, ?_, ?_⟩
  · intro r hr p hp
    rw [reconcileDatasets_eq] at hr
    rcases List.mem_append.1 hr with hr | hr
    · obtain ⟨n, kp, hkp, rfl⟩ := mem_emitIdx hr
      rw [processPurchase_purchaseRecord] at hp
      have hpe : p = kp.2 := by
        injection hp.symm with h
      subst hpe
      rw [processPurchase_matchKey, ← mapGet_buildMap]
      apply mapGet_eq_some_of_mem (nodup_keys_buildMap ps)
      cases kp
      exact hkp
    · obtain ⟨n, kp, hkp, rfl⟩ := mem_emitIdx hr
      exact absurd hp (by simp [mkMissingInPurchase])
  · intro r hr s hs
    rw [reconcileDatasets_eq] at hr
    rcases List.mem_append.1 hr with hr | hr
    · obtain ⟨n, kp, hkp, rfl⟩ := mem_emitIdx hr
      rw [processPurchase_salesRecord] at hs
      rw [processPurchase_matchKey, ← mapGet_buildMap]
      exact hs
    · obtain ⟨n, kp, hkp, rfl⟩ := mem_emitIdx hr
      have hse : s = kp.2 := by
        have : some kp.2 = some s := hs
        injection this with h
        exact h.symm
      subst hse
      rw [show (mkMissingInPurchase n kp.1 kp.2).matchKey = kp.1 from rfl,
        ← mapGet_buildMap]
      apply mapGet_eq_some_of_mem (nodup_keys_buildMap ss)
      have hkpm := (List.mem_filter.1 hkp).1
      cases kp
      exact hkpm

def DupA : FinancialRecord :=
  ⟨"a1", "G1", "Alpha", "INV-3", "2024-04-01", 1, 0, 0, 0, 1, []⟩

def DupB : FinancialRecord :=
  ⟨"a2", "G1", "Alpha", "INV-3", "2024-04-01", 2, 0, 0, 0, 2, []⟩

theorem reconcile_one_result_per_key_witness :
    ((reconcileDatasets [DupA, DupB] []).map (fun r => r.matchKey)).Nodup ∧
    ("INV-3|2024-04-01" ∈ (reconcileDatasets [DupA, DupB] []).map
      (fun r => r.matchKey) ↔
      "INV-3|2024-04-01" ∈ ([DupA, DupB] ++ []).map generateMatchKey) :=
  ⟨(reconcile_one_result_per_key [DupA, DupB] []).1,
    (reconcile_one_result_per_key [DupA, DupB] []).2.1 "INV-3|2024-04-01"⟩


lemma reconcile_result_of_purchase_key (ps ss : List FinancialRecord)
    {k : String} {p : FinancialRecord}
    (hp : mapGet (buildMap ps) k = some p) :
    ∃ r, (reconcileDatasets ps ss).filter (fun x => x.matchKey == k) = [r] ∧
      ∃ n, r = processPurchase (buildMap ss) n k p := by
  have hmem : (k, p) ∈ buildMap ps := mem_of_mapGet_eq_some hp
  obtain ⟨n, hn⟩ := mem_emitIdx_of_mem
    (g := fun n kp => processPurchase (buildMap ss) n kp.1 kp.2) hmem 0
  have hrmem : processPurchase (buildMap ss) n k p ∈ reconcileDatasets ps ss := by
    rw [reconcileDatasets_eq]
    exact List.mem_append.2 (Or.inl hn)
  exact ⟨_, filter_matchKey_single (nodup_matchKey_reconcile ps ss) hrmem
    (processPurchase_matchKey _ _ _ _), n, rfl⟩

lemma processPurchase_some_fields {sm : RecMap} {n : Nat} {k : String}
    {p s : FinancialRecord} (hs : mapGet sm k = some s) :
    (findMismatches p s = [] →
      processPurchase sm n k p =
        ⟨mkResultId n, ReconciliationStatus.matched, some p, some s, k, [], 0⟩) ∧
    (findMismatches p s ≠ [] →
      processPurchase sm n k p =
        ⟨mkResultId n, ReconciliationStatus.mismatched, some p, some s, k,
          findMismatches p s,
          ((((findMismatches p s).find?
              (fun m => m.field == "Total Amount")).bind
            (fun m => m.difference)).getD 0)⟩) := by
  constructor
  · intro h
    unfold processPurchase
    rw [hs]
    dsimp only
    rw [h]
    rfl
  · intro h
    have hne : (findMismatches p s).isEmpty = false := by
      cases hfm2 : findMismatches p s
      · exact absurd hfm2 h
      · rfl
    unfold processPurchase
    rw [hs]
    dsimp only
    simp [hne]

lemma find_total_eq_some {p s : FinancialRecord}
    (hyp : ∃ m ∈ findMismatches p s, m.field = "Total Amount") :
    ((findMismatches p s).find? (fun m => m.field == "Total Amount")).bind
        (fun m => m.difference)
      = some (p.totalAmount - s.totalAmount) := by
  obtain ⟨m0, hm0, hf0⟩ := hyp
  have hsome : ((findMismatches p s).find?
      (fun m => m.field == "Total Amount")).isSome :=
    List.find?_isSome.2 ⟨m0, hm0, by simp [hf0]⟩
  obtain ⟨m1, hm1⟩ := Option.isSome_iff_exists.1 hsome
  rw [hm1]
  have hmem1 := List.mem_of_find?_eq_some hm1
  have hf1 : m1.field = "Total Amount" := by
    have := List.find?_some hm1
    simpa using this
  have hd := (difference_of_field hmem1).2.2.2.2 hf1
  simp [hd]

lemma find_total_eq_none {p s : FinancialRecord}
    (hyp : ∀ m ∈ findMismatches p s, m.field ≠ "Total Amount") :
    (findMismatches p s).find? (fun m => m.field == "Total Amount") = none := by
  rw [List.find?_eq_none]
  intro m hm
  simpa using hyp m hm

set_option maxHeartbeats 1600000 in
/-- C1: for a key in both maps, exactly one result is emitted, both records
attached; zero detector reasons give a matched result with no reasons and
zero difference, otherwise a mismatched result carrying exactly the
detector's reasons, whose totalDifference is the Total Amount reason's
signed difference when present and 0 when absent. -/
theorem reconcile_key_in_both (ps ss : List FinancialRecord) (k : String)
    (p s : FinancialRecord)
    (hp : mapGet (buildMap ps) k = some p)
    (hs : mapGet (buildMap ss) k = some s) :
    ∃ r, (reconcileDatasets ps ss).filter (fun x => x.matchKey == k) = [r] ∧
      r.purchaseRecord = some p ∧ r.salesRecord = some s ∧
      (findMismatches p s = [] →
        r.status = ReconciliationStatus.matched ∧ r.mismatchReasons = [] ∧
        r.totalDifference = 0) ∧
      (findMismatches p s ≠ [] →
        r.status = ReconciliationStatus.mismatched ∧
        r.mismatchReasons = findMismatches p s ∧
        ((∃ m ∈ findMismatches p s, m.field = "Total Amount") →
          r.totalDifference = p.totalAmount - s.totalAmount) ∧
        ((∀ m ∈ findMismatches p s, m.field ≠ "Total Amount") →
          r.totalDifference = 0)) := by
  obtain ⟨r, hfilter, n, hr⟩ := reconcile_result_of_purchase_key ps ss hp
  subst hr
  refine ⟨_, hfilter, processPurchase_purchaseRecord _ _ _ _, ?_, ?_, ?_⟩
  · rw [processPurchase_salesRecord]
    exact hs
  · intro hfm
    rw [(processPurchase_some_fields hs).1 hfm]
    exact ⟨rfl, rfl, rfl⟩
  · intro hfm
    rw [(processPurchase_some_fields hs).2 hfm]
    refine ⟨rfl, rfl, ?_, ?_⟩
    · intro hyp
      show (((findMismatches p s).find?
          (fun m => m.field == "Total Amount")).bind
          (fun m => m.difference)).getD 0 = p.totalAmount - s.totalAmount
      rw [find_total_eq_some hyp]
      rfl
    · intro hyp
      show (((findMismatches p s).find?
          (fun m => m.field == "Total Amount")).bind
          (fun m => m.difference)).getD 0 = 0
      rw [find_total_eq_none hyp]
      rfl

def CP1 : FinancialRecord :=
  ⟨"p9", "29GA", "Zeta", "INV-21", "2024-05-02", 50, 9, 0, 0, 59, []⟩

def CS1 : FinancialRecord :=
  ⟨"s9", "29GA", "Zeta", "INV-21", "2024-05-02", 50, 9, 0, 0, 59, []⟩

theorem reconcile_key_in_both_witness :
    ∃ r, (reconcileDatasets [CP1] [CS1]).filter
        (fun x => x.matchKey == "INV-21|2024-05-02") = [r] ∧
      r.purchaseRecord = some CP1 ∧ r.salesRecord = some CS1 ∧
      (findMismatches CP1 CS1 = [] →
        r.status = ReconciliationStatus.matched ∧ r.mismatchReasons = [] ∧
        r.totalDifference = 0) ∧
      (findMismatches CP1 CS1 ≠ [] →
        r.status = ReconciliationStatus.mismatched ∧
        r.mismatchReasons = findMismatches CP1 CS1 ∧
        ((∃ m ∈ findMismatches CP1 CS1, m.field = "Total Amount") →
          r.totalDifference = CP1.totalAmount - CS1.totalAmount) ∧
        ((∀ m ∈ findMismatches CP1 CS1, m.field ≠ "Total Amount") →
          r.totalDifference = 0)) :=
  reconcile_key_in_both [CP1] [CS1] "INV-21|2024-05-02" CP1 CS1
    (by decide) (by decide)


lemma processPurchase_none_fields {sm : RecMap} {n : Nat} {k : String}
    {p : FinancialRecord} (hs : mapGet sm k = none) :
    processPurchase sm n k p =
      ⟨mkResultId n, ReconciliationStatus.missing_in_sales, some p, none, k,
        [], p.totalAmount⟩ := by
  unfold processPurchase
  rw [hs]

/-- C2: a key only in the purchase map yields one missing_in_sales result
carrying the purchase record and its total amount, and a key only in the
sales map yields one missing_in_purchase result carrying the sales record
and the negated sales total amount. -/
theorem reconcile_key_in_one (ps ss : List FinancialRecord) (k : String) :
    (∀ p, mapGet (buildMap ps) k = some p → mapGet (buildMap ss) k = none →
      ∃ r, (reconcileDatasets ps ss).filter (fun x => x.matchKey == k) = [r] ∧
        r.status = ReconciliationStatus.missing_in_sales ∧
        r.purchaseRecord = some p ∧ r.salesRecord = none ∧
        r.mismatchReasons = [] ∧ r.totalDifference = p.totalAmount) ∧
    (∀ s, mapGet (buildMap ss) k = some s → mapGet (buildMap ps) k = none →
      ∃ r, (reconcileDatasets ps ss).filter (fun x => x.matchKey == k) = [r] ∧
        r.status = ReconciliationStatus.missing_in_purchase ∧
        r.purchaseRecord = none ∧ r.salesRecord = some s ∧
        r.mismatchReasons = [] ∧ r.totalDifference = -s.totalAmount) := by
  constructor
  · intro p hp hs
    obtain ⟨r, hfilter, n, hr⟩ := reconcile_result_of_purchase_key ps ss hp
    subst hr
    rw [processPurchase_none_fields hs] at hfilter
    exact ⟨_, hfilter, rfl, rfl, rfl, rfl, rfl⟩
  · intro s hs hp
    have hmem : (k, s) ∈ buildMap ss := mem_of_mapGet_eq_some hs
    have hnotkey : k ∉ (buildMap ps).map Prod.fst := by
      intro hc
      have := mapGet_isSome_iff_mem_keys.2 hc
      rw [hp] at this
      simp at this
    have hcond : (buildMap ps).any (fun q => q.1 == k) = false := by
      rw [List.any_eq_false]
      intro q hq hc
      apply hnotkey
      rw [← eq_of_beq hc]
      exact List.mem_map.2 ⟨q, hq, rfl⟩
    have hfmem : (k, s) ∈ (buildMap ss).filter
        (fun kp => !(buildMap ps).any (fun q => q.1 == kp.1)) :=
      List.mem_filter.2 ⟨hmem, by simp [hcond]⟩
    obtain ⟨n, hn⟩ := mem_emitIdx_of_mem
      (g := fun n kp => mkMissingInPurchase n kp.1 kp.2) hfmem
      ((buildMap ps).length)
    have hrmem : mkMissingInPurchase n k s ∈ reconcileDatasets ps ss := by
      rw [reconcileDatasets_eq]
      exact List.mem_append.2 (Or.inr hn)
    refine ⟨mkMissingInPurchase n k s,
      filter_matchKey_single (nodup_matchKey_reconcile ps ss) hrmem rfl,
      rfl, rfl, rfl, rfl, rfl⟩

theorem reconcile_key_in_one_witness :
    (∃ r, (reconcileDatasets [CP1] []).filter
        (fun x => x.matchKey == "INV-21|2024-05-02") = [r] ∧
      r.status = ReconciliationStatus.missing_in_sales ∧
      r.purchaseRecord = some CP1 ∧ r.salesRecord = none ∧
      r.mismatchReasons = [] ∧ r.totalDifference = CP1.totalAmount) ∧
    (∃ r, (reconcileDatasets [] [CS1]).filter
        (fun x => x.matchKey == "INV-21|2024-05-02") = [r] ∧
      r.status = ReconciliationStatus.missing_in_purchase ∧
      r.purchaseRecord = none ∧ r.salesRecord = some CS1 ∧
      r.mismatchReasons = [] ∧ r.totalDifference = -CS1.totalAmount) :=
  ⟨(reconcile_key_in_one [CP1] [] "INV-21|2024-05-02").1 CP1 (by decide) rfl,
    (reconcile_key_in_one [] [CS1] "INV-21|2024-05-02").2 CS1 (by decide) rfl⟩


end Recon
